import Mathlib

/-!
Shallow embedding of the plumise-oracle contribution oracle (TypeScript/NestJS)
and proofs of the specification claims about it.

The embedded functions follow the source files:
* `src/modules/metrics/metrics.service.ts`   (telemetry ingestor, delta accumulation)
* `src/modules/metrics/metrics.controller.ts` (HTTP status mapping)
* `src/modules/nodes/nodes.service.ts`        (token bounds check)
* `src/modules/scorer/scorer.service.ts`      (current generation, with proof
  integration and the idle multiplier)
* `src/modules/reporter/reporter.service.ts`  (contribution reporting cycle)
* `src/modules/pipeline/pipeline.service.ts`  (per-model layer split)
* `src/modules/cluster/cluster.service.ts`    (LAN cluster formation)
* `src/modules/proof/proof.service.ts`        (proof store and plausibility check)

JavaScript `number` arithmetic on the involved paths is integer-valued except
for latencies, proportions and scores, which we model exactly with `ℚ`;
`bigint` values are modelled with `ℤ`.
-/

namespace PlumiseOracle

/-- JavaScript `Math.round`: round half away from zero toward +∞, i.e. `⌊x + 1/2⌋`. -/
def jsRound (x : ℚ) : ℤ := ⌊x + 1/2⌋

/-- JavaScript `Math.floor` of an (exact) division. -/
def jsFloorDiv (a b : ℚ) : ℤ := ⌊a / b⌋

/-- JavaScript `String.prototype.toLowerCase` on the ASCII addresses and
hashes involved (kernel-reducible, unlike `String.toLower`). -/
def jsToLower (s : String) : String := ⟨s.data.map Char.toLower⟩

/-! ## Telemetry ingestor (`metrics.service.ts`, `nodes.service.ts`) -/

/-- `MAX_TOKENS_PER_REPORT = 1_000_000_000` from `nodes.service.ts`. -/
def MAX_TOKENS_PER_REPORT : ℤ := 1000000000

/-- `NodesService.validateTokensProcessed`:
`tokens >= 0 && tokens <= MAX_TOKENS_PER_REPORT`. -/
def validateTokensProcessed (tokens : ℤ) : Bool :=
  decide (0 ≤ tokens) && decide (tokens ≤ MAX_TOKENS_PER_REPORT)

/-- The telemetry request body (`ReportMetricsDto`). -/
structure ReportMetricsDto where
  wallet : String
  tokensProcessed : ℤ
  avgLatencyMs : ℚ
  requestCount : ℤ
  uptimeSeconds : ℤ
  timestamp : ℤ
deriving DecidableEq, Repr

/-- A row of the `inference_metrics` table (`InferenceMetrics` entity);
`tokensProcessed`, `lastUpdated` and `lastRawTokens` are `bigint` columns. -/
structure InferenceMetrics where
  tokensProcessed : ℤ
  avgLatencyMs : ℚ
  requestCount : ℤ
  uptimeSeconds : ℤ
  lastUpdated : ℤ
  lastRawTokens : ℤ
  lastRawRequests : ℤ
deriving DecidableEq, Repr

/-- The state touched by `MetricsService.recordMetrics`: the three in-memory
per-address maps and the `inference_metrics` rows keyed by `(wallet, epoch)`. -/
structure MetricsState where
  agentLastReportedTokens : String → Option ℤ
  agentLastReportedRequests : String → Option ℤ
  agentLastTimestamp : String → Option ℤ
  rows : String → ℤ → Option InferenceMetrics

/-- Fresh state: empty maps, no rows. -/
def MetricsState.empty : MetricsState :=
  { agentLastReportedTokens := fun _ => none
    agentLastReportedRequests := fun _ => none
    agentLastTimestamp := fun _ => none
    rows := fun _ _ => none }

/-- The value returned by `recordMetrics`. -/
structure RecordResult where
  success : Bool
  shouldReset : Bool
  error : Option String
deriving DecidableEq, Repr

/-- `MetricsService.recordMetrics`.  External effects are parameters:
`isRegistered` is the on-chain registration answer, `currentEpoch` the chain
epoch, `now` the server clock (seconds), and `persistOk` tells whether the
database save succeeds (`false` hits the catch-block and returns the
`Internal server error` result).  Note the source updates the three in-memory
maps *before* `metricsRepo.save`, so they stay advanced when the save throws. -/
def recordMetrics (st : MetricsState) (dto : ReportMetricsDto)
    (isRegistered : Bool) (currentEpoch : ℤ) (now : ℤ) (persistOk : Bool) :
    RecordResult × MetricsState :=
  let wallet := jsToLower dto.wallet
  if isRegistered = false then
    ({ success := false, shouldReset := false,
       error := some "Agent not registered on-chain" }, st)
  else
    let lastTimestamp := (st.agentLastTimestamp wallet).getD 0
    if dto.timestamp ≤ lastTimestamp then
      ({ success := false, shouldReset := false,
         error := some "Replay detected: timestamp must be strictly increasing" }, st)
    else if validateTokensProcessed dto.tokensProcessed = false then
      ({ success := false, shouldReset := false,
         error := some "Token count exceeds maximum allowed" }, st)
    else
      let metrics0 := st.rows wallet currentEpoch
      let isNewEpoch := metrics0.isNone
      let metrics := metrics0.getD
        { tokensProcessed := 0, avgLatencyMs := 0, requestCount := 0,
          uptimeSeconds := 0, lastUpdated := now,
          lastRawTokens := 0, lastRawRequests := 0 }
      let prevTokens := metrics.tokensProcessed
      let prevRequests := metrics.requestCount
      let prevLatency := metrics.avgLatencyMs
      let reportedTokens := dto.tokensProcessed
      let reportedRequests := dto.requestCount
      let lastReportedTokens := (st.agentLastReportedTokens wallet).getD 0
      let lastReportedRequests := (st.agentLastReportedRequests wallet).getD 0
      let tokenDelta :=
        if reportedTokens < lastReportedTokens then reportedTokens
        else reportedTokens - lastReportedTokens
      let requestDelta :=
        if reportedRequests < lastReportedRequests then reportedRequests
        else reportedRequests - lastReportedRequests
      -- lines 181-183: maps are updated before the persist attempt
      let st1 : MetricsState :=
        { st with
          agentLastReportedTokens := fun w =>
            if w = wallet then some reportedTokens else st.agentLastReportedTokens w
          agentLastReportedRequests := fun w =>
            if w = wallet then some reportedRequests else st.agentLastReportedRequests w
          agentLastTimestamp := fun w =>
            if w = wallet then some dto.timestamp else st.agentLastTimestamp w }
      let newRequestCount := prevRequests + requestDelta
      let newAvgLatency :=
        if 0 < newRequestCount then
          (prevLatency * (prevRequests : ℚ) + dto.avgLatencyMs * (dto.requestCount : ℚ)) /
            (newRequestCount : ℚ)
        else prevLatency
      let metrics' : InferenceMetrics :=
        { tokensProcessed := prevTokens + tokenDelta
          avgLatencyMs := newAvgLatency
          requestCount := newRequestCount
          uptimeSeconds := dto.uptimeSeconds
          lastUpdated := dto.timestamp
          lastRawTokens := reportedTokens
          lastRawRequests := reportedRequests }
      if persistOk then
        ({ success := true, shouldReset := isNewEpoch, error := none },
         { st1 with rows := fun w e =>
             if w = wallet ∧ e = currentEpoch then some metrics' else st.rows w e })
      else
        ({ success := false, shouldReset := false,
           error := some "Internal server error" }, st1)

/-- HTTP outcome of the telemetry controller. -/
inductive HttpOutcome
  | ok (shouldReset : Bool)
  | unauthorized
  | badRequest
deriving DecidableEq, Repr

/-- NestJS status codes: `UnauthorizedException` is 401,
`BadRequestException` is 400. -/
def HttpOutcome.status : HttpOutcome → ℕ
  | .ok _ => 200
  | .unauthorized => 401
  | .badRequest => 400

/-- `MetricsController.reportMetricsSimple` (`POST /api/metrics`), non-internal
path: verify the signature, call `recordMetrics`, and map a failed result to
`BadRequestException`. -/
def reportMetricsSimple (signatureValid : Bool) (st : MetricsState)
    (dto : ReportMetricsDto) (isRegistered : Bool) (currentEpoch : ℤ)
    (now : ℤ) (persistOk : Bool) : HttpOutcome × MetricsState :=
  if signatureValid = false then (.unauthorized, st)
  else
    let res := recordMetrics st dto isRegistered currentEpoch now persistOk
    if res.1.success = false then (.badRequest, res.2)
    else (.ok res.1.shouldReset, res.2)

/-! ## Epoch scorer (`scorer.service.ts`, current generation with proof
integration and the idle multiplier) -/

/-- An entry of the in-memory `agentTasks` log (`TaskRecord`). -/
structure TaskRecord where
  challengeId : ℤ
  solvedAt : ℤ
  solveTime : ℚ
deriving DecidableEq, Repr

/-- `ScorerService.calculateScore`: weighted, normalized sum with the idle
multiplier.  `avgLatencyInv` is accepted but unused, as in the source. -/
def calculateScore (taskCount : ℤ) (uptimeSeconds : ℤ) (responseScore : ℤ)
    (processedTokens : ℤ) (avgLatencyInv : ℤ) : ℚ :=
  let hasWork := 0 < taskCount ∨ 0 < processedTokens
  let idleMultiplier : ℚ := if hasWork then 1 else 1/10
  let taskScoreNormalized : ℚ := min 100 ((taskCount : ℚ) / 100 * 100)
  let uptimeScoreNormalized : ℚ := min 100 ((uptimeSeconds : ℚ) / 3600 * 100)
  let responseScoreNormalized : ℚ := min 100 (responseScore : ℚ)
  let _ := avgLatencyInv
  (taskScoreNormalized * 50 +
     uptimeScoreNormalized * 30 * idleMultiplier +
     responseScoreNormalized * 20 * idleMultiplier) / 100

/-- The `responseScore` computation inside `ScorerService.getAgentScore`:
`0` when the agent has no tasks, else
`Math.floor(Math.min(100, Math.max(0, 100 - avgSolveTime / 10)))`. -/
def getAgentScoreResponseScore (tasks : List TaskRecord) : ℤ :=
  if tasks.length = 0 then 0
  else
    let totalSolveTime := tasks.foldl (fun sum task => sum + task.solveTime) 0
    let avgSolveTime := totalSolveTime / (tasks.length : ℚ)
    let normalizedSpeed := min 100 (max 0 (100 - avgSolveTime / 10))
    ⌊normalizedSpeed⌋

/-- The `processedTokens` substitution inside `getAgentScore`:
`if (verifiedTokens > processedTokens) processedTokens = verifiedTokens`. -/
def getAgentScoreProcessedTokens (metricsTokens verifiedTokens : ℤ) : ℤ :=
  if metricsTokens < verifiedTokens then verifiedTokens else metricsTokens

/-- `clamp(x, lo, hi)` in the spec's notation (§4.3). -/
def specClamp (x lo hi : ℚ) : ℚ := max lo (min hi x)

/-! ## Contribution reporter (`reporter.service.ts`) -/

/-- Per-agent external world for one report cycle: whether the
`reportContribution` write succeeds (`txHash` available), whether waiting for
the receipt succeeds, and whether the local DB save succeeds
(`saveContributionToDB` swallows its own errors). -/
structure ReporterEnv where
  writeOk : String → Bool
  receiptOk : String → Bool
  dbOk : String → Bool

/-- Observable events of a report cycle, in order of occurrence. -/
inductive REvent
  | txSubmitted (addr : String)
  | txIncluded (addr : String)
  | contributionUpserted (addr : String) (epoch : ℤ)
deriving DecidableEq, Repr

/-- The in-memory epoch accumulators of the scorer:
`agentTasks` and `agentUptimes`. -/
structure ScorerState where
  agentTasks : String → List TaskRecord
  agentUptimes : String → Option ℤ

/-- `ScorerService.resetEpochData`: clear both maps. -/
def ScorerState.reset : ScorerState :=
  { agentTasks := fun _ => [], agentUptimes := fun _ => none }

/-- `ReporterService.reportAgentContribution`: submit `reportContribution`,
await inclusion, then upsert the local `Contribution` row; any throw is caught
and reported as `false`.  Returns success and the emitted events. -/
def reportAgentContribution (env : ReporterEnv) (epoch : ℤ) (addr : String) :
    Bool × List REvent :=
  if env.writeOk addr = false then (false, [])
  else if env.receiptOk addr = false then (false, [.txSubmitted addr])
  else
    (true, [.txSubmitted addr, .txIncluded addr] ++
      (if env.dbOk addr then [.contributionUpserted addr epoch] else []))

/-- `ReporterService.reportAllContributions`: report every active agent,
collect failures, and reset the scorer's epoch accumulators only when no
agent failed.  Returns the new scorer state and the event trace. -/
def reportAllContributions (env : ReporterEnv) (epoch : ℤ)
    (activeAgents : List String) (scorer : ScorerState) :
    ScorerState × List REvent :=
  if activeAgents = [] then (scorer, [])
  else
    let results := activeAgents.map fun a => reportAgentContribution env epoch a
    let events := results.foldr (fun r acc => r.2 ++ acc) []
    let failedAgents := results.filter fun r => !r.1
    if failedAgents.length = 0 then (ScorerState.reset, events) else (scorer, events)

/-! ## Pipeline layer split (`pipeline.service.ts`, `assignLayers`) -/

/-- The fields of a `PipelineAssignment` row that drive the weight
computation of `assignLayers`. -/
structure ActiveAssignment where
  vramMb : ℕ
  ramMb : ℕ
  device : String
deriving DecidableEq, Repr

/-- Weight of one active assignment:
`(a.device === 'cpu' || Number(a.vramMb) === 0) ? (Number(a.ramMb) || 1) : (Number(a.vramMb) || 1)`. -/
def weightOf (a : ActiveAssignment) : ℕ :=
  if a.device = "cpu" ∨ a.vramMb = 0 then
    (if a.ramMb = 0 then 1 else a.ramMb)
  else
    (if a.vramMb = 0 then 1 else a.vramMb)

/-- The proportional loop of `assignLayers`: each node but the last takes
`Math.round(totalLayers * weight / totalWeight)` layers from the running
cursor; the last takes `totalLayers - currentLayer`, so its `layerEnd` is
exactly `totalLayers`. -/
def splitLoop (L W : ℕ) : List ℕ → ℕ → List (ℤ × ℤ)
  | [], _ => []
  | [_], c => [((c : ℤ), (L : ℤ))]
  | w :: w' :: rest, c =>
    let layerCount := (jsRound ((L : ℚ) * (w : ℚ) / (W : ℚ))).toNat
    ((c : ℤ), ((c + layerCount : ℕ) : ℤ)) :: splitLoop L W (w' :: rest) (c + layerCount)

/-- The equal-distribution branch of `assignLayers` (total weight zero):
index `i < n-1` gets `[i*per, (i+1)*per)` with `per = ⌊L/n⌋`; the last
index gets `[i*per, L)`. -/
def equalLoop (L per : ℕ) : ℕ → ℕ → List (ℤ × ℤ)
  | _, 0 => []
  | i, 1 => [(((i * per : ℕ) : ℤ), (L : ℤ))]
  | i, n + 2 =>
    (((i * per : ℕ) : ℤ), (((i + 1) * per : ℕ) : ℤ)) :: equalLoop L per (i + 1) (n + 1)

/-- `PipelineService.assignLayers` restricted to the interval computation:
given the model's total layer count and the active assignments (in creation
order), produce the `[layerStart, layerEnd)` intervals in `pipelineOrder`. -/
def assignLayers (L : ℕ) (active : List ActiveAssignment) : List (ℤ × ℤ) :=
  match active with
  | [] => []
  | [_] => [((0 : ℤ), (L : ℤ))]
  | _ =>
    let weights := active.map weightOf
    let totalWeight := weights.foldl (· + ·) 0
    if totalWeight = 0 then
      equalLoop L (L / active.length) 0 active.length
    else
      splitLoop L totalWeight weights 0

/-! ## Cluster formation (`cluster.service.ts`) -/

/-- The fields of an `AgentNode` used by cluster formation. -/
structure ClusterNode where
  address : String
  benchmarkTokPerSec : ℚ
  lanIp : String
deriving DecidableEq, Repr

/-- `ClusterService.getAvailableMemory`: the source currently returns the
constant `8_000` MB for every node. -/
def getAvailableMemory (_node : ClusterNode) : ℕ := 8000

/-- `MODEL_LAYERS` lookup of `cluster.service.ts` with its fallback `32`. -/
def clusterModelLayers (model : String) : ℕ :=
  if model = "qwen/qwen3-32b" then 64
  else if model = "qwen/qwen3.5-397b-a17b" then 96
  else 32

/-- `MODEL_MEMORY_REQUIREMENTS` lookup with its fallback `12_000`. -/
def clusterModelMemoryRequirement (model : String) : ℕ :=
  if model = "qwen/qwen3-32b" then 20000
  else if model = "qwen/qwen3.5-397b-a17b" then 220000
  else 12000

/-- The greedy selection loop of `formClusterFromNodes`: push each node,
add its available memory, stop as soon as the requirement is met. -/
def selectLoop (requiredMemoryMb : ℕ) : List ClusterNode → ℕ → List ClusterNode
  | [], _ => []
  | n :: rest, totalMemory =>
    let totalMemory' := totalMemory + getAvailableMemory n
    n :: (if requiredMemoryMb ≤ totalMemory' then [] else selectLoop requiredMemoryMb rest totalMemory')

/-- The per-node memory cap of `formClusterFromNodes`:
`memPerLayer = requiredMemoryMb / totalLayers` and
`maxLayersForNode = Math.floor(availMem / memPerLayer)`. -/
def maxLayersForNode (requiredMemoryMb L availMem : ℕ) : ℤ :=
  jsFloorDiv (availMem : ℚ) ((requiredMemoryMb : ℚ) / (L : ℚ))

/-- Layer count of a non-last cluster member:
`max(1, Math.round(totalLayers * proportion))`, clamped to the remaining
layers, then capped by the per-node memory cap (the cap, when it binds,
substitutes `max(1, maxLayersForNode)`). -/
def clusterMidLayerCount (L requiredMemoryMb : ℕ) (benchmarkTokPerSec totalTokPerSec : ℚ)
    (availMem : ℕ) (currentLayer : ℤ) : ℤ :=
  let tokPerSec := if benchmarkTokPerSec = 0 then 1 else benchmarkTokPerSec
  let proportion := tokPerSec / totalTokPerSec
  let layerCount1 : ℤ := max 1 (jsRound ((L : ℚ) * proportion))
  let layerCount2 : ℤ :=
    if (L : ℤ) < currentLayer + layerCount1 then (L : ℤ) - currentLayer else layerCount1
  if maxLayersForNode requiredMemoryMb L availMem < layerCount2 then
    max 1 (maxLayersForNode requiredMemoryMb L availMem)
  else layerCount2

/-- Layer count of the last cluster member: the remainder
`totalLayers - currentLayer`, capped by the per-node memory cap. -/
def clusterLastLayerCount (L requiredMemoryMb availMem : ℕ) (currentLayer : ℤ) : ℤ :=
  let layerCount0 : ℤ := (L : ℤ) - currentLayer
  if maxLayersForNode requiredMemoryMb L availMem < layerCount0 then
    max 1 (maxLayersForNode requiredMemoryMb L availMem)
  else layerCount0

/-- The layer-distribution loop of `formClusterFromNodes`. -/
def clusterDistLoop (L requiredMemoryMb : ℕ) (totalTokPerSec : ℚ) :
    List ClusterNode → ℤ → List (ℤ × ℤ)
  | [], _ => []
  | [n], currentLayer =>
    [(currentLayer,
      currentLayer + clusterLastLayerCount L requiredMemoryMb (getAvailableMemory n) currentLayer)]
  | n :: n' :: rest, currentLayer =>
    let layerCount := clusterMidLayerCount L requiredMemoryMb n.benchmarkTokPerSec
      totalTokPerSec (getAvailableMemory n) currentLayer
    (currentLayer, currentLayer + layerCount) ::
      clusterDistLoop L requiredMemoryMb totalTokPerSec (n' :: rest) (currentLayer + layerCount)

/-- `ClusterService.formClusterFromNodes` restricted to the
`[layerStart, layerEnd)` intervals it persists (in member order, which is
also `pipelineOrder` order): sort by `benchmarkTokPerSec` descending
(stable), greedily select until the memory requirement is met, abort when the
group memory is insufficient or fewer than two nodes were selected, else
distribute layers.  An aborted formation persists no assignment (`[]`). -/
def formClusterFromNodes (nodes : List ClusterNode) (L requiredMemoryMb : ℕ) :
    List (ℤ × ℤ) :=
  let sorted := List.mergeSort nodes
    (fun a b => decide (b.benchmarkTokPerSec ≤ a.benchmarkTokPerSec))
  let selected := selectLoop requiredMemoryMb sorted 0
  let totalMemory := selected.foldl (fun s n => s + getAvailableMemory n) 0
  if totalMemory < requiredMemoryMb then []
  else if selected.length < 2 then []
  else
    let totalTokPerSec := selected.foldl
      (fun s n => s + (if n.benchmarkTokPerSec = 0 then 1 else n.benchmarkTokPerSec)) 0
    clusterDistLoop L requiredMemoryMb totalTokPerSec selected 0

/-- Cluster formation for a named model, using the model tables. -/
def formClusterLayersForModel (model : String) (nodes : List ClusterNode) :
    List (ℤ × ℤ) :=
  formClusterFromNodes nodes (clusterModelLayers model) (clusterModelMemoryRequirement model)

/-- Three LAN peers for `qwen/qwen3-32b` whose benchmark throughputs are
100, 1, 1 tok/s (already in descending order). -/
def clusterScenarioNodes : List ClusterNode :=
  [{ address := "0xbb01", benchmarkTokPerSec := 100, lanIp := "192.168.0.1" },
   { address := "0xbb02", benchmarkTokPerSec := 1, lanIp := "192.168.0.2" },
   { address := "0xbb03", benchmarkTokPerSec := 1, lanIp := "192.168.0.3" }]

/-! ## Proof store (`proof.service.ts`) -/

/-- Request body of a submitted proof (`InferenceProofDto`). -/
structure InferenceProofDto where
  modelHash : String
  inputHash : String
  outputHash : String
  tokenCount : ℤ
deriving DecidableEq, Repr

/-- A stored `inference_proofs` row (the fields the plausibility check uses). -/
structure InferenceProofRow where
  agentAddress : String
  epoch : ℤ
  modelHash : String
  inputHash : String
  outputHash : String
  tokenCount : ℤ
  verified : Bool
deriving DecidableEq, Repr

/-- One character of `[0-9a-f]` under the `/i` flag. -/
def isHexChar (c : Char) : Bool :=
  c.isDigit || (decide (c.val ≥ 97) && decide (c.val ≤ 102)) ||
    (decide (c.val ≥ 65) && decide (c.val ≤ 70))

/-- The regex `/^0x[0-9a-f]{64}$/i` of the hash-format check. -/
def matchesHashPattern (s : String) : Bool :=
  match s.toList with
  | '0' :: 'x' :: rest => decide (rest.length = 64) && rest.all isHexChar
  | _ => false

/-- `ProofService.verifyProofAgainstMetrics`: requires a metrics row for the
proof's `(address, epoch)`, a token count within the agent's accumulated
total, well-formed hashes, and non-trivially-equal hashes. -/
def verifyProofAgainstMetrics (metrics : Option InferenceMetrics)
    (proof : InferenceProofRow) : Bool :=
  match metrics with
  | none => false
  | some m =>
    if m.tokensProcessed < proof.tokenCount then false
    else if !(matchesHashPattern proof.modelHash &&
              matchesHashPattern proof.inputHash &&
              matchesHashPattern proof.outputHash) then false
    else if proof.inputHash = proof.outputHash ∨ proof.modelHash = proof.inputHash then false
    else true

/-- `ProofService.saveProof`: persist the proof with `verified = false`, run
the plausibility check against the agent's metrics row for the epoch, and
mark the saved row verified when the check passes (`markVerified`); the net
effect on the store is appending the row with its final flag. -/
def saveProof (store : List InferenceProofRow) (metrics : Option InferenceMetrics)
    (agentAddress : String) (epoch : ℤ) (dto : InferenceProofDto) :
    List InferenceProofRow :=
  let proof : InferenceProofRow :=
    { agentAddress := jsToLower agentAddress
      epoch := epoch
      modelHash := jsToLower dto.modelHash
      inputHash := jsToLower dto.inputHash
      outputHash := jsToLower dto.outputHash
      tokenCount := dto.tokenCount
      verified := false }
  let verificationResult := verifyProofAgainstMetrics metrics proof
  store ++ [if verificationResult then { proof with verified := true } else proof]

/-! ## Interval properties for the layer-assignment invariant -/

/-- Membership of a layer index in a half-open interval `[layerStart, layerEnd)`. -/
def intervalMem (x : ℤ) (iv : ℤ × ℤ) : Prop := iv.1 ≤ x ∧ x < iv.2

/-- The intervals are pairwise disjoint as sets of layer indices. -/
def pairwiseDisjoint (ivs : List (ℤ × ℤ)) : Prop :=
  ivs.Pairwise fun a b => ∀ x : ℤ, ¬(intervalMem x a ∧ intervalMem x b)

/-- The union of the intervals is exactly `[0, K)`. -/
def coversExactly (ivs : List (ℤ × ℤ)) (K : ℤ) : Prop :=
  ∀ x : ℤ, (∃ iv ∈ ivs, intervalMem x iv) ↔ (0 ≤ x ∧ x < K)

/-- The intervals are consecutive starting at `c`: each interval starts where
the previous one ends. -/
def consecFrom : ℤ → List (ℤ × ℤ) → Prop
  | _, [] => True
  | c, iv :: rest => iv.1 = c ∧ consecFrom iv.2 rest

/-- The end of the last interval (`c` for the empty list). -/
def lastEnd (c : ℤ) : List (ℤ × ℤ) → ℤ
  | [] => c
  | iv :: rest => lastEnd iv.2 rest

/-! ## Concrete telemetry scenario (spec §8, end-to-end scenario 1):
cumulative reports `(t=100,r=1)`, `(t=300,r=3)`, `(t=250,r=4)` at
`ts = 1000, 1030, 1060`. -/

/-- Report 1 of the scenario. -/
def scenarioDto1 : ReportMetricsDto :=
  { wallet := "0xaa01", tokensProcessed := 100, avgLatencyMs := 0,
    requestCount := 1, uptimeSeconds := 0, timestamp := 1000 }

/-- Report 2 of the scenario. -/
def scenarioDto2 : ReportMetricsDto :=
  { wallet := "0xaa01", tokensProcessed := 300, avgLatencyMs := 0,
    requestCount := 3, uptimeSeconds := 0, timestamp := 1030 }

/-- Report 3 of the scenario (token counter reset: 250 < 300). -/
def scenarioDto3 : ReportMetricsDto :=
  { wallet := "0xaa01", tokensProcessed := 250, avgLatencyMs := 0,
    requestCount := 4, uptimeSeconds := 0, timestamp := 1060 }

/-- State after report 1 (epoch 1, registered, persist succeeds). -/
def scenarioState1 : MetricsState :=
  (recordMetrics MetricsState.empty scenarioDto1 true 1 999 true).2

/-- State after report 2. -/
def scenarioState2 : MetricsState :=
  (recordMetrics scenarioState1 scenarioDto2 true 1 999 true).2

/-- State after report 3. -/
def scenarioState3 : MetricsState :=
  (recordMetrics scenarioState2 scenarioDto3 true 1 999 true).2

/-- The four fields of the scenario row the claim talks about. -/
def scenarioRowSummary : Option (ℤ × ℤ × ℤ × ℤ) :=
  (scenarioState3.rows "0xaa01" 1).map fun r =>
    (r.tokensProcessed, r.requestCount, r.lastRawTokens, r.lastRawRequests)

/-! ## Theorems -/

/-- **C1, counterexample.**  The claim's concrete sequence
`(100,1), (300,3), (250,4)` does *not* end with `requestCount = 7`: the
request counter never resets in this sequence (1 ≤ 3 ≤ 4), so the request
deltas are 1, 2, 1 and the row ends with `requestCount = 4`. -/
theorem claim_C1_counterexample :
    scenarioRowSummary = some (550, 4, 250, 4) ∧
      scenarioRowSummary ≠ some (550, 7, 250, 4) := by
  constructor
  · decide
  · decide

/-- **C1, amended.**  For every accepted telemetry report with reported
cumulative counters `T` and `R`, the ingestor computes
`tokenDelta = T − lastRawTokens` when `T ≥ lastRawTokens` and
`tokenDelta = T` otherwise (counter reset), analogously for requests; it adds
the deltas to `tokensProcessed` / `requestCount` and sets
`lastRawTokens = T`, `lastRawRequests = R`.  For the accepted sequence
`(100,1), (300,3), (250,4)` the row therefore ends with
`tokensProcessed = 550`, `requestCount = 4` (deltas 1+2+1; the request
counter does not reset), `lastRawTokens = 250`, `lastRawRequests = 4`. -/
theorem claim_C1_amended :
    (∀ (st : MetricsState) (dto : ReportMetricsDto) (ep now : ℤ),
      (recordMetrics st dto true ep now true).1.success = true →
      ((recordMetrics st dto true ep now true).2.rows (jsToLower dto.wallet) ep).map
          (fun r => (r.tokensProcessed, r.requestCount, r.lastRawTokens, r.lastRawRequests)) =
        some
          (((st.rows (jsToLower dto.wallet) ep).elim 0 (·.tokensProcessed)) +
             (if (st.agentLastReportedTokens (jsToLower dto.wallet)).getD 0 ≤ dto.tokensProcessed
              then dto.tokensProcessed - (st.agentLastReportedTokens (jsToLower dto.wallet)).getD 0
              else dto.tokensProcessed),
           ((st.rows (jsToLower dto.wallet) ep).elim 0 (·.requestCount)) +
             (if (st.agentLastReportedRequests (jsToLower dto.wallet)).getD 0 ≤ dto.requestCount
              then dto.requestCount - (st.agentLastReportedRequests (jsToLower dto.wallet)).getD 0
              else dto.requestCount),
           dto.tokensProcessed,
           dto.requestCount)) ∧
    scenarioRowSummary = some (550, 4, 250, 4) := by
  constructor
  · intro st dto ep now hsucc
    simp only [recordMetrics] at hsucc ⊢
    rw [if_neg (by decide : ¬((true : Bool) = false))] at hsucc ⊢
    by_cases hts : dto.timestamp ≤ (st.agentLastTimestamp (jsToLower dto.wallet)).getD 0
    · rw [if_pos hts] at hsucc
      simp at hsucc
    rw [if_neg hts] at hsucc ⊢
    by_cases hval : validateTokensProcessed dto.tokensProcessed = false
    · rw [if_pos hval] at hsucc
      simp at hsucc
    rw [if_neg hval] at hsucc ⊢
    rw [if_pos trivial]
    simp only [eq_self_iff_true, and_self, if_true, Option.map_some', Option.some.injEq,
      Prod.mk.injEq]
    constructor
    · cases hrow : st.rows (jsToLower dto.wallet) ep with
      | none =>
        simp only [hrow, Option.getD_none, Option.elim_none]
        split
        · next hlt =>
          rw [if_neg (by omega)]
        · next hge =>
          rw [if_pos (by omega)]
      | some r =>
        simp only [hrow, Option.getD_some, Option.elim_some]
        split
        · next hlt =>
          rw [if_neg (by omega)]
        · next hge =>
          rw [if_pos (by omega)]
    · cases hrow : st.rows (jsToLower dto.wallet) ep with
      | none =>
        simp only [hrow, Option.getD_none, Option.elim_none]
        split
        · next hlt =>
          rw [if_neg (by omega)]
          all_goals exact ⟨rfl, trivial⟩
        · next hge =>
          rw [if_pos (by omega)]
          all_goals exact ⟨rfl, trivial⟩
      | some r =>
        simp only [hrow, Option.getD_some, Option.elim_some]
        split
        · next hlt =>
          rw [if_neg (by omega)]
          all_goals exact ⟨rfl, trivial⟩
        · next hge =>
          rw [if_pos (by omega)]
          all_goals exact ⟨rfl, trivial⟩
  · decide

/-- **C1, witness** for the amended theorem's general conjunct, applied to
the scenario's first report. -/
theorem claim_C1_witness :
    (recordMetrics MetricsState.empty scenarioDto1 true 1 999 true).1.success = true ∧
    ((recordMetrics MetricsState.empty scenarioDto1 true 1 999 true).2.rows
        (jsToLower scenarioDto1.wallet) 1).map
        (fun r => (r.tokensProcessed, r.requestCount, r.lastRawTokens, r.lastRawRequests)) =
      some
        (((MetricsState.empty.rows (jsToLower scenarioDto1.wallet) 1).elim 0 (·.tokensProcessed)) +
           (if (MetricsState.empty.agentLastReportedTokens (jsToLower scenarioDto1.wallet)).getD 0 ≤
               scenarioDto1.tokensProcessed
            then scenarioDto1.tokensProcessed -
               (MetricsState.empty.agentLastReportedTokens (jsToLower scenarioDto1.wallet)).getD 0
            else scenarioDto1.tokensProcessed),
         ((MetricsState.empty.rows (jsToLower scenarioDto1.wallet) 1).elim 0 (·.requestCount)) +
           (if (MetricsState.empty.agentLastReportedRequests (jsToLower scenarioDto1.wallet)).getD 0 ≤
               scenarioDto1.requestCount
            then scenarioDto1.requestCount -
               (MetricsState.empty.agentLastReportedRequests (jsToLower scenarioDto1.wallet)).getD 0
            else scenarioDto1.requestCount),
         scenarioDto1.tokensProcessed,
         scenarioDto1.requestCount) :=
  ⟨by decide, claim_C1_amended.1 MetricsState.empty scenarioDto1 1 999 (by decide)⟩

/-- **C2.**  A telemetry report whose client timestamp is not strictly greater
than the last accepted timestamp for the address is rejected, and the
rejection changes nothing: the returned state is the input state, so no
`EpochMetrics` row and none of the three in-memory maps change.  In
particular, replaying an already-accepted payload (same body) is rejected and
leaves the state identical. -/
theorem claim_C2_replay_guard :
    (∀ (st : MetricsState) (dto : ReportMetricsDto) (ep now : ℤ) (persistOk : Bool),
      dto.timestamp ≤ (st.agentLastTimestamp (jsToLower dto.wallet)).getD 0 →
      recordMetrics st dto true ep now persistOk =
        ({ success := false, shouldReset := false,
           error := some "Replay detected: timestamp must be strictly increasing" }, st)) ∧
    (∀ (st : MetricsState) (dto : ReportMetricsDto) (ep now : ℤ) (persistOk : Bool),
      (recordMetrics st dto true ep now true).1.success = true →
      recordMetrics (recordMetrics st dto true ep now true).2 dto true ep now persistOk =
        ({ success := false, shouldReset := false,
           error := some "Replay detected: timestamp must be strictly increasing" },
         (recordMetrics st dto true ep now true).2)) := by
  have rej : ∀ (st : MetricsState) (dto : ReportMetricsDto) (ep now : ℤ) (persistOk : Bool),
      dto.timestamp ≤ (st.agentLastTimestamp (jsToLower dto.wallet)).getD 0 →
      recordMetrics st dto true ep now persistOk =
        ({ success := false, shouldReset := false,
           error := some "Replay detected: timestamp must be strictly increasing" }, st) := by
    intro st dto ep now persistOk h
    simp only [recordMetrics]
    rw [if_neg (by decide : ¬((true : Bool) = false)), if_pos h]
  refine ⟨rej, ?_⟩
  intro st dto ep now persistOk hsucc
  have hts : ((recordMetrics st dto true ep now true).2).agentLastTimestamp
      (jsToLower dto.wallet) = some dto.timestamp := by
    simp only [recordMetrics] at hsucc ⊢
    rw [if_neg (by decide : ¬((true : Bool) = false))] at hsucc ⊢
    by_cases h1 : dto.timestamp ≤ (st.agentLastTimestamp (jsToLower dto.wallet)).getD 0
    · rw [if_pos h1] at hsucc
      simp at hsucc
    rw [if_neg h1] at hsucc ⊢
    by_cases h2 : validateTokensProcessed dto.tokensProcessed = false
    · rw [if_pos h2] at hsucc
      simp at hsucc
    rw [if_neg h2] at hsucc ⊢
    rw [if_pos trivial]
    simp
  exact rej _ dto ep now persistOk (by rw [hts]; simp)

/-- **C7, counterexample.**  When the database save fails
(`persistOk = false`) for an otherwise-valid report from a fresh state, the
endpoint returns 400 (`BadRequestException`), not a 5xx status, and the
in-memory replay guard *has* been advanced (from `none` to the report's
timestamp), contradicting the claim on both counts. -/
theorem claim_C7_counterexample :
    (reportMetricsSimple true MetricsState.empty scenarioDto1 true 1 999 false).1.status = 400 ∧
    ¬ 500 ≤ (reportMetricsSimple true MetricsState.empty scenarioDto1 true 1 999 false).1.status ∧
    (reportMetricsSimple true MetricsState.empty scenarioDto1 true 1 999 false).2.agentLastTimestamp
        "0xaa01" = some 1000 ∧
    MetricsState.empty.agentLastTimestamp "0xaa01" = none := by
  refine ⟨by decide, by decide, by decide, rfl⟩

/-- **C7, amended.**  When persisting the accepted metrics fails, the
endpoint returns 400 (`BadRequestException`, because the controller maps every
unsuccessful `recordMetrics` result to `BadRequestException`), no
`EpochMetrics` row is written, but the in-memory guards for the reporting
address *are* advanced: they were updated to the report's timestamp and raw
counters before the persist attempt. -/
theorem claim_C7_amended :
    ∀ (st : MetricsState) (dto : ReportMetricsDto) (ep now : ℤ),
      (st.agentLastTimestamp (jsToLower dto.wallet)).getD 0 < dto.timestamp →
      validateTokensProcessed dto.tokensProcessed = true →
      (reportMetricsSimple true st dto true ep now false).1 = .badRequest ∧
      (reportMetricsSimple true st dto true ep now false).2.rows = st.rows ∧
      (reportMetricsSimple true st dto true ep now false).2.agentLastTimestamp
          (jsToLower dto.wallet) = some dto.timestamp ∧
      (reportMetricsSimple true st dto true ep now false).2.agentLastReportedTokens
          (jsToLower dto.wallet) = some dto.tokensProcessed ∧
      (reportMetricsSimple true st dto true ep now false).2.agentLastReportedRequests
          (jsToLower dto.wallet) = some dto.requestCount := by
  intro st dto ep now hts hval
  have hts' : ¬ dto.timestamp ≤ (st.agentLastTimestamp (jsToLower dto.wallet)).getD 0 := by omega
  have hval' : ¬ validateTokensProcessed dto.tokensProcessed = false := by
    rw [hval]; decide
  simp only [reportMetricsSimple, recordMetrics]
  rw [if_neg (by decide : ¬((true : Bool) = false)), if_neg hts', if_neg hval']
  rw [if_neg (by decide : ¬((true : Bool) = false))]
  simp

/-- **C7, witness** for the amended theorem at the scenario's first report
with a failing persist. -/
theorem claim_C7_witness :
    (reportMetricsSimple true MetricsState.empty scenarioDto1 true 1 999 false).1 = .badRequest ∧
    (reportMetricsSimple true MetricsState.empty scenarioDto1 true 1 999 false).2.rows =
      MetricsState.empty.rows ∧
    (reportMetricsSimple true MetricsState.empty scenarioDto1 true 1 999 false).2.agentLastTimestamp
        (jsToLower scenarioDto1.wallet) = some scenarioDto1.timestamp ∧
    (reportMetricsSimple true MetricsState.empty scenarioDto1 true 1 999
          false).2.agentLastReportedTokens (jsToLower scenarioDto1.wallet) =
      some scenarioDto1.tokensProcessed ∧
    (reportMetricsSimple true MetricsState.empty scenarioDto1 true 1 999
          false).2.agentLastReportedRequests (jsToLower scenarioDto1.wallet) =
      some scenarioDto1.requestCount :=
  claim_C7_amended MetricsState.empty scenarioDto1 1 999 (by decide) (by decide)

/-- **C9.**  `validateTokensProcessed` accepts exactly the integers
`0 ≤ tokens ≤ 1_000_000_000`, and a report with a negative token count that
reaches the bounds check is rejected with the bounds error, leaving the state
unchanged. -/
theorem claim_C9_bounds :
    (∀ t : ℤ, validateTokensProcessed t = true ↔ 0 ≤ t ∧ t ≤ 1000000000) ∧
    (∀ (st : MetricsState) (dto : ReportMetricsDto) (ep now : ℤ) (persistOk : Bool),
      dto.tokensProcessed < 0 →
      (st.agentLastTimestamp (jsToLower dto.wallet)).getD 0 < dto.timestamp →
      recordMetrics st dto true ep now persistOk =
        ({ success := false, shouldReset := false,
           error := some "Token count exceeds maximum allowed" }, st)) := by
  constructor
  · intro t
    simp [validateTokensProcessed, MAX_TOKENS_PER_REPORT]
  · intro st dto ep now persistOk hneg hts
    have hts' : ¬ dto.timestamp ≤ (st.agentLastTimestamp (jsToLower dto.wallet)).getD 0 := by
      omega
    have hval : validateTokensProcessed dto.tokensProcessed = false := by
      simp [validateTokensProcessed]
      omega
    simp only [recordMetrics]
    rw [if_neg (by decide : ¬((true : Bool) = false)), if_neg hts', if_pos hval]

/-- **C9, witness**: `-1` is rejected with the bounds error; the boundary
values `0` and `1_000_000_000` are accepted by the validator while
`1_000_000_001` is not. -/
theorem claim_C9_witness :
    (validateTokensProcessed 0 = true ↔ (0 : ℤ) ≤ 0 ∧ (0 : ℤ) ≤ 1000000000) ∧
    recordMetrics MetricsState.empty
        { wallet := "0xaa01", tokensProcessed := -1, avgLatencyMs := 0,
          requestCount := 1, uptimeSeconds := 0, timestamp := 1000 } true 1 999 true =
      ({ success := false, shouldReset := false,
         error := some "Token count exceeds maximum allowed" }, MetricsState.empty) :=
  ⟨claim_C9_bounds.1 0, claim_C9_bounds.2 MetricsState.empty _ 1 999 true
    (by decide) (by decide)⟩

/-- **C2, witness**: the first scenario report is accepted from the fresh
state, and replaying its exact payload is rejected with the state unchanged. -/
theorem claim_C2_witness :
    (recordMetrics MetricsState.empty scenarioDto1 true 1 999 true).1.success = true ∧
    recordMetrics (recordMetrics MetricsState.empty scenarioDto1 true 1 999 true).2
        scenarioDto1 true 1 999 true =
      ({ success := false, shouldReset := false,
         error := some "Replay detected: timestamp must be strictly increasing" },
       (recordMetrics MetricsState.empty scenarioDto1 true 1 999 true).2) :=
  ⟨by decide, claim_C2_replay_guard.2 MetricsState.empty scenarioDto1 1 999 true (by decide)⟩

/-- **C5.**  In the current scorer, `responseScore` is `0` when the agent has
no task records, and otherwise `⌊clamp(100 − avgSolveTime/10, 0, 100)⌋` where
`avgSolveTime` is the mean solve time of the agent's task records. -/
theorem claim_C5_response_score :
    ∀ tasks : List TaskRecord,
      getAgentScoreResponseScore tasks =
        if tasks.length = 0 then 0
        else ⌊specClamp (100 - ((tasks.map (·.solveTime)).sum / (tasks.length : ℚ)) / 10) 0 100⌋ := by
  intro tasks
  unfold getAgentScoreResponseScore specClamp
  split
  · rfl
  · have hsum : tasks.foldl (fun sum task => sum + task.solveTime) 0 =
        (tasks.map (·.solveTime)).sum := by
      rw [List.sum_eq_foldl, List.foldl_map]
    rw [hsum, max_min_distrib_left]
    norm_num

/-- **C6.**  The final scalar score is
`(taskN*50 + upN*30*idle + respN*20*idle) / 100` with
`idle = 1` when `taskCount > 0` or `processedTokens > 0` and `0.1` otherwise;
in particular, an agent with zero tasks and zero processed tokens has its
task component zeroed out and its uptime and response components multiplied
by `0.1`. -/
theorem claim_C6_final_score :
    (∀ (taskCount uptimeSeconds responseScore processedTokens avgLatencyInv : ℤ),
      calculateScore taskCount uptimeSeconds responseScore processedTokens avgLatencyInv =
        (min 100 ((taskCount : ℚ) / 100 * 100) * 50 +
           min 100 ((uptimeSeconds : ℚ) / 3600 * 100) * 30 *
             (if 0 < taskCount ∨ 0 < processedTokens then 1 else 0.1) +
           min 100 (responseScore : ℚ) * 20 *
             (if 0 < taskCount ∨ 0 < processedTokens then 1 else 0.1)) / 100) ∧
    (∀ (uptimeSeconds responseScore avgLatencyInv : ℤ),
      calculateScore 0 uptimeSeconds responseScore 0 avgLatencyInv =
        (min 100 ((uptimeSeconds : ℚ) / 3600 * 100) * 30 * 0.1 +
           min 100 (responseScore : ℚ) * 20 * 0.1) / 100) := by
  constructor
  · intro taskCount uptimeSeconds responseScore processedTokens avgLatencyInv
    unfold calculateScore
    norm_num
  · intro uptimeSeconds responseScore avgLatencyInv
    unfold calculateScore
    norm_num

/-- **C10.**  A proof submitted for an `(address, epoch)` with no
`EpochMetrics` row is still persisted (appended to the store) but stays
`verified = false`; and any saved proof that ends up `verified = true` had a
metrics row for its `(address, epoch)`. -/
theorem claim_C10_proof_requires_metrics :
    (∀ (store : List InferenceProofRow) (dto : InferenceProofDto) (addr : String) (ep : ℤ),
      saveProof store none addr ep dto =
        store ++ [{ agentAddress := jsToLower addr, epoch := ep,
                    modelHash := jsToLower dto.modelHash,
                    inputHash := jsToLower dto.inputHash,
                    outputHash := jsToLower dto.outputHash,
                    tokenCount := dto.tokenCount,
                    verified := false }]) ∧
    (∀ (store : List InferenceProofRow) (metrics : Option InferenceMetrics)
        (dto : InferenceProofDto) (addr : String) (ep : ℤ),
      ((saveProof store metrics addr ep dto).getLast?.map (·.verified)) = some true →
      metrics ≠ none) := by
  constructor
  · intro store dto addr ep
    simp [saveProof, verifyProofAgainstMetrics]
  · intro store metrics dto addr ep hlast
    cases metrics with
    | some m => simp
    | none =>
      exfalso
      simp [saveProof, verifyProofAgainstMetrics, List.getLast?_concat] at hlast

/-- **C10, witness** for the second conjunct: a proof with well-formed,
pairwise-distinct hashes and a token count within the agent's total is saved
verified, and the theorem yields `some _ ≠ none` for its metrics row. -/
theorem claim_C10_witness :
    ((saveProof []
        (some { tokensProcessed := 100, avgLatencyMs := 0, requestCount := 1,
                uptimeSeconds := 0, lastUpdated := 1000, lastRawTokens := 100,
                lastRawRequests := 1 })
        "0xAA" 1
        { modelHash := "0xaaaaaaaaaaaaaaaaaaaaaaaaaaaaaaaaaaaaaaaaaaaaaaaaaaaaaaaaaaaaaaaa",
          inputHash := "0xbbbbbbbbbbbbbbbbbbbbbbbbbbbbbbbbbbbbbbbbbbbbbbbbbbbbbbbbbbbbbbbb",
          outputHash := "0xcccccccccccccccccccccccccccccccccccccccccccccccccccccccccccccccc",
          tokenCount := 50 }).getLast?.map (·.verified)) = some true ∧
    (some { tokensProcessed := 100, avgLatencyMs := 0, requestCount := 1,
            uptimeSeconds := 0, lastUpdated := 1000, lastRawTokens := 100,
            lastRawRequests := 1 } : Option InferenceMetrics) ≠ none :=
  ⟨by decide, claim_C10_proof_requires_metrics.2 []
    (some { tokensProcessed := 100, avgLatencyMs := 0, requestCount := 1,
            uptimeSeconds := 0, lastUpdated := 1000, lastRawTokens := 100,
            lastRawRequests := 1 })
    { modelHash := "0xaaaaaaaaaaaaaaaaaaaaaaaaaaaaaaaaaaaaaaaaaaaaaaaaaaaaaaaaaaaaaaaa",
      inputHash := "0xbbbbbbbbbbbbbbbbbbbbbbbbbbbbbbbbbbbbbbbbbbbbbbbbbbbbbbbbbbbbbbbb",
      outputHash := "0xcccccccccccccccccccccccccccccccccccccccccccccccccccccccccccccccc",
      tokenCount := 50 }
    "0xAA" 1 (by decide)⟩

/-- **C3.**  After a reporter cycle over a nonempty batch, the scorer's
in-memory epoch accumulators are reset if and only if `reportContribution`
succeeded for every agent in the batch (any partial failure leaves them
intact); and for each agent the local `Contribution` upsert event occurs only
when the transaction was submitted and its inclusion confirmed, and it occurs
after the inclusion event. -/
theorem claim_C3_reporter_reset :
    (∀ (env : ReporterEnv) (ep : ℤ) (agents : List String) (scorer : ScorerState),
      agents ≠ [] →
      (reportAllContributions env ep agents scorer).1 =
        (if ∀ a ∈ agents, (reportAgentContribution env ep a).1 = true
         then ScorerState.reset else scorer)) ∧
    (∀ (env : ReporterEnv) (ep : ℤ) (addr : String),
      REvent.contributionUpserted addr ep ∈ (reportAgentContribution env ep addr).2 →
      env.writeOk addr = true ∧ env.receiptOk addr = true ∧
      (reportAgentContribution env ep addr).2.indexOf (REvent.txIncluded addr) <
        (reportAgentContribution env ep addr).2.indexOf (REvent.contributionUpserted addr ep)) := by
  constructor
  · intro env ep agents scorer hne
    unfold reportAllContributions
    rw [if_neg hne]
    by_cases hall : ∀ a ∈ agents, (reportAgentContribution env ep a).1 = true
    · rw [if_pos hall]
      have h0 : ((agents.map fun a => reportAgentContribution env ep a).filter
          fun r => !r.1).length = 0 := by
        rw [List.length_eq_zero, List.filter_eq_nil_iff]
        intro r hr
        rw [List.mem_map] at hr
        obtain ⟨a, ha, rfl⟩ := hr
        simp [hall a ha]
      rw [if_pos h0]
    · rw [if_neg hall]
      have h0 : ((agents.map fun a => reportAgentContribution env ep a).filter
          fun r => !r.1).length ≠ 0 := by
        rw [Ne, List.length_eq_zero, List.filter_eq_nil_iff]
        intro hnil
        apply hall
        intro a ha
        have := hnil (reportAgentContribution env ep a) (List.mem_map_of_mem _ ha)
        simpa using this
      rw [if_neg h0]
  · intro env ep addr hmem
    unfold reportAgentContribution at hmem ⊢
    by_cases hw : env.writeOk addr = false
    · rw [if_pos hw] at hmem
      simp at hmem
    rw [if_neg hw] at hmem ⊢
    by_cases hr : env.receiptOk addr = false
    · rw [if_pos hr] at hmem
      simp at hmem
    rw [if_neg hr] at hmem ⊢
    by_cases hd : env.dbOk addr
    · refine ⟨by revert hw; cases env.writeOk addr <;> simp,
        by revert hr; cases env.receiptOk addr <;> simp, ?_⟩
      rw [if_pos hd] at hmem ⊢
      have h1 : (REvent.txSubmitted addr == REvent.txIncluded addr) = false := by simp
      have h2 : (REvent.txSubmitted addr == REvent.contributionUpserted addr ep) = false := by
        simp
      have h3 : (REvent.txIncluded addr == REvent.contributionUpserted addr ep) = false := by
        simp
      simp [List.indexOf, List.findIdx_cons, h1, h2, h3]
    · rw [if_neg hd] at hmem
      simp at hmem

/-- **C3, witness**: a two-agent batch where both succeed resets the
accumulators, and the single-agent event trace puts the inclusion strictly
before the upsert. -/
theorem claim_C3_witness :
    (reportAllContributions
        { writeOk := fun _ => true, receiptOk := fun _ => true, dbOk := fun _ => true }
        1 ["0xa1", "0xa2"]
        { agentTasks := fun _ => [⟨1, 0, 5⟩], agentUptimes := fun _ => some 60 }).1 =
      (if ∀ a ∈ ["0xa1", "0xa2"],
          (reportAgentContribution
            { writeOk := fun _ => true, receiptOk := fun _ => true, dbOk := fun _ => true }
            1 a).1 = true
       then ScorerState.reset
       else { agentTasks := fun _ => [⟨1, 0, 5⟩], agentUptimes := fun _ => some 60 }) :=
  claim_C3_reporter_reset.1
    { writeOk := fun _ => true, receiptOk := fun _ => true, dbOk := fun _ => true }
    1 ["0xa1", "0xa2"]
    { agentTasks := fun _ => [⟨1, 0, 5⟩], agentUptimes := fun _ => some 60 }
    (by decide)

/-! ### Chain lemmas: consecutive well-formed intervals partition their span -/

theorem consecFrom_le_lastEnd :
    ∀ (ivs : List (ℤ × ℤ)) (c : ℤ), consecFrom c ivs →
      (∀ iv ∈ ivs, iv.1 ≤ iv.2) → c ≤ lastEnd c ivs := by
  intro ivs
  induction ivs with
  | nil => intro c _ _; simp [lastEnd]
  | cons iv rest ih =>
    intro c hc hm
    obtain ⟨h1, h2⟩ := hc
    have htail := ih iv.2 h2 fun i hi => hm i (List.mem_cons_of_mem _ hi)
    have hse := hm iv (List.mem_cons_self _ _)
    show c ≤ lastEnd iv.2 rest
    omega

theorem consecFrom_mem_start :
    ∀ (ivs : List (ℤ × ℤ)) (c : ℤ), consecFrom c ivs →
      (∀ iv ∈ ivs, iv.1 ≤ iv.2) → ∀ iv ∈ ivs, c ≤ iv.1 := by
  intro ivs
  induction ivs with
  | nil => intro c _ _ iv hiv; cases hiv
  | cons hd rest ih =>
    intro c hc hm iv hiv
    obtain ⟨h1, h2⟩ := hc
    rcases List.mem_cons.mp hiv with rfl | hmem
    · omega
    · have hse := hm hd (List.mem_cons_self _ _)
      have := ih hd.2 h2 (fun i hi => hm i (List.mem_cons_of_mem _ hi)) iv hmem
      omega

theorem consecFrom_covers :
    ∀ (ivs : List (ℤ × ℤ)) (c : ℤ), consecFrom c ivs →
      (∀ iv ∈ ivs, iv.1 ≤ iv.2) →
      ∀ x : ℤ, (∃ iv ∈ ivs, intervalMem x iv) ↔ (c ≤ x ∧ x < lastEnd c ivs) := by
  intro ivs
  induction ivs with
  | nil =>
    intro c _ _ x
    simp [lastEnd]
  | cons iv rest ih =>
    intro c hc hm x
    obtain ⟨h1, h2⟩ := hc
    have hse := hm iv (List.mem_cons_self _ _)
    have hmono := fun i hi => hm i (List.mem_cons_of_mem iv hi)
    have htail := ih iv.2 h2 hmono x
    have hK := consecFrom_le_lastEnd rest iv.2 h2 hmono
    show (∃ j ∈ iv :: rest, intervalMem x j) ↔ c ≤ x ∧ x < lastEnd iv.2 rest
    constructor
    · rintro ⟨j, hj, hmemj⟩
      rcases List.mem_cons.mp hj with rfl | hjr
      · obtain ⟨ha, hb⟩ := hmemj
        omega
      · have := htail.mp ⟨j, hjr, hmemj⟩
        omega
    · rintro ⟨hle, hlt⟩
      by_cases hx : x < iv.2
      · exact ⟨iv, List.mem_cons_self _ _, by constructor <;> omega⟩
      · obtain ⟨j, hj, hmemj⟩ := htail.mpr ⟨by omega, hlt⟩
        exact ⟨j, List.mem_cons_of_mem _ hj, hmemj⟩

theorem consecFrom_disjoint :
    ∀ (ivs : List (ℤ × ℤ)) (c : ℤ), consecFrom c ivs →
      (∀ iv ∈ ivs, iv.1 ≤ iv.2) → pairwiseDisjoint ivs := by
  intro ivs
  induction ivs with
  | nil => intro c _ _; exact List.Pairwise.nil
  | cons iv rest ih =>
    intro c hc hm
    obtain ⟨h1, h2⟩ := hc
    have hmono := fun i hi => hm i (List.mem_cons_of_mem iv hi)
    refine List.Pairwise.cons ?_ (ih iv.2 h2 hmono)
    intro b hb x hx
    obtain ⟨⟨hax, hxa⟩, ⟨hbx, hxb⟩⟩ := hx
    have := consecFrom_mem_start rest iv.2 h2 hmono b hb
    omega

/-! ### Structure of the pipeline split -/

theorem splitLoop_consec (L W : ℕ) :
    ∀ (ws : List ℕ) (c : ℕ), consecFrom (c : ℤ) (splitLoop L W ws c) := by
  intro ws
  induction ws with
  | nil => intro c; exact trivial
  | cons w rest ih =>
    intro c
    cases rest with
    | nil => exact ⟨rfl, trivial⟩
    | cons w' rest' =>
      exact ⟨rfl, by exact_mod_cast ih (c + (jsRound ((L : ℚ) * (w : ℚ) / (W : ℚ))).toNat)⟩

theorem splitLoop_lastEnd (L W : ℕ) :
    ∀ (ws : List ℕ) (c : ℕ), ws ≠ [] → lastEnd (c : ℤ) (splitLoop L W ws c) = (L : ℤ) := by
  intro ws
  induction ws with
  | nil => intro c h; exact absurd rfl h
  | cons w rest ih =>
    intro c _
    cases rest with
    | nil => rfl
    | cons w' rest' =>
      show lastEnd _ (splitLoop L W (w' :: rest') _) = (L : ℤ)
      exact ih (c + (jsRound ((L : ℚ) * (w : ℚ) / (W : ℚ))).toNat) (by simp)

theorem equalLoop_consec (L per : ℕ) :
    ∀ (n i : ℕ), consecFrom ((i * per : ℕ) : ℤ) (equalLoop L per i n) := by
  intro n
  induction n with
  | zero => intro i; exact trivial
  | succ m ih =>
    intro i
    cases m with
    | zero => exact ⟨rfl, trivial⟩
    | succ k => exact ⟨rfl, ih (i + 1)⟩

theorem equalLoop_lastEnd (L per : ℕ) :
    ∀ (n i : ℕ), n ≠ 0 → lastEnd ((i * per : ℕ) : ℤ) (equalLoop L per i n) = (L : ℤ) := by
  intro n
  induction n with
  | zero => intro i h; exact absurd rfl h
  | succ m ih =>
    intro i _
    cases m with
    | zero => rfl
    | succ k =>
      show lastEnd _ (equalLoop L per (i + 1) (k + 1)) = (L : ℤ)
      exact ih (i + 1) (by simp)

theorem assignLayers_consec (L : ℕ) (active : List ActiveAssignment) :
    consecFrom 0 (assignLayers L active) := by
  cases active with
  | nil => exact trivial
  | cons a rest =>
    cases rest with
    | nil => exact ⟨rfl, trivial⟩
    | cons b rest' =>
      show consecFrom 0 (assignLayers L (a :: b :: rest'))
      unfold assignLayers
      split
      · exact trivial
      · exact ⟨rfl, trivial⟩
      · show consecFrom 0
          (if (((a :: b :: rest').map weightOf).foldl (· + ·) 0) = 0
           then equalLoop L (L / (a :: b :: rest').length) 0 (a :: b :: rest').length
           else splitLoop L (((a :: b :: rest').map weightOf).foldl (· + ·) 0)
             ((a :: b :: rest').map weightOf) 0)
        split
        · simpa using equalLoop_consec L (L / (a :: b :: rest').length)
            (a :: b :: rest').length 0
        · simpa using splitLoop_consec L
            (((a :: b :: rest').map weightOf).foldl (· + ·) 0)
            ((a :: b :: rest').map weightOf) 0

theorem assignLayers_lastEnd (L : ℕ) (active : List ActiveAssignment)
    (h : active ≠ []) : lastEnd 0 (assignLayers L active) = (L : ℤ) := by
  cases active with
  | nil => exact absurd rfl h
  | cons a rest =>
    cases rest with
    | nil => rfl
    | cons b rest' =>
      unfold assignLayers
      split
      · rename_i heq
        exact absurd heq (by simp)
      · rename_i hd heq
        exact absurd heq (by simp)
      · show lastEnd 0
          (if (((a :: b :: rest').map weightOf).foldl (· + ·) 0) = 0
           then equalLoop L (L / (a :: b :: rest').length) 0 (a :: b :: rest').length
           else splitLoop L (((a :: b :: rest').map weightOf).foldl (· + ·) 0)
             ((a :: b :: rest').map weightOf) 0) = (L : ℤ)
        split
        · simpa using equalLoop_lastEnd L (L / (a :: b :: rest').length)
            (a :: b :: rest').length 0 (by simp)
        · simpa using splitLoop_lastEnd L
            (((a :: b :: rest').map weightOf).foldl (· + ·) 0)
            ((a :: b :: rest').map weightOf) 0 (by simp)

/-! ### Structure of cluster formation -/

theorem max_one_le {a b : ℤ} (h0 : 0 ≤ a) (h : a < b) : max 1 a ≤ b := by
  rcases max_choice 1 a with h' | h' <;> rw [h'] <;> omega

theorem maxLayersForNode_nonneg (req L availMem : ℕ) :
    0 ≤ maxLayersForNode req L availMem := by
  unfold maxLayersForNode jsFloorDiv
  apply Int.floor_nonneg.mpr
  positivity

theorem clusterLastLayerCount_bounds (L req availMem : ℕ) (c : ℤ) (hc : c ≤ (L : ℤ)) :
    0 ≤ clusterLastLayerCount L req availMem c ∧
      c + clusterLastLayerCount L req availMem c ≤ (L : ℤ) := by
  have hm := maxLayersForNode_nonneg req L availMem
  simp only [clusterLastLayerCount]
  split
  · next h =>
    have := max_one_le hm h
    constructor
    · omega
    · omega
  · constructor
    · omega
    · omega

theorem clusterMidLayerCount_bounds (L req availMem : ℕ) (tok totalTok : ℚ) (c : ℤ)
    (hc : c ≤ (L : ℤ)) :
    0 ≤ clusterMidLayerCount L req tok totalTok availMem c ∧
      c + clusterMidLayerCount L req tok totalTok availMem c ≤ (L : ℤ) := by
  have hm := maxLayersForNode_nonneg req L availMem
  simp only [clusterMidLayerCount]
  generalize jsRound ((L : ℚ) * ((if tok = 0 then 1 else tok) / totalTok)) = r
  have h1 : (1 : ℤ) ≤ max 1 r := le_max_left _ _
  split
  · next hclamp =>
    split
    · next hcap =>
      have := max_one_le hm hcap
      constructor
      · omega
      · omega
    · constructor
      · omega
      · omega
  · next hclamp =>
    split
    · next hcap =>
      have := max_one_le hm hcap
      constructor
      · omega
      · omega
    · constructor
      · omega
      · omega

theorem clusterDistLoop_consec (L req : ℕ) (totalTok : ℚ) :
    ∀ (nodes : List ClusterNode) (c : ℤ), consecFrom c (clusterDistLoop L req totalTok nodes c) := by
  intro nodes
  induction nodes with
  | nil => intro c; exact trivial
  | cons n rest ih =>
    intro c
    cases rest with
    | nil => exact ⟨rfl, trivial⟩
    | cons n' rest' => exact ⟨rfl, ih _⟩

theorem clusterDistLoop_wf (L req : ℕ) (totalTok : ℚ) :
    ∀ (nodes : List ClusterNode) (c : ℤ), c ≤ (L : ℤ) →
      (∀ iv ∈ clusterDistLoop L req totalTok nodes c, iv.1 ≤ iv.2) ∧
      lastEnd c (clusterDistLoop L req totalTok nodes c) ≤ (L : ℤ) := by
  intro nodes
  induction nodes with
  | nil =>
    intro c hc
    exact ⟨fun iv h => absurd h (List.not_mem_nil iv), hc⟩
  | cons n rest ih =>
    intro c hc
    cases rest with
    | nil =>
      obtain ⟨h0, hL⟩ := clusterLastLayerCount_bounds L req (getAvailableMemory n) c hc
      constructor
      · intro iv hiv
        rcases List.mem_cons.mp hiv with rfl | hmem
        · show c ≤ c + clusterLastLayerCount L req (getAvailableMemory n) c
          omega
        · cases hmem
      · show lastEnd _ [] ≤ (L : ℤ)
        exact hL
    | cons n' rest' =>
      obtain ⟨h0, hL⟩ := clusterMidLayerCount_bounds L req (getAvailableMemory n)
        n.benchmarkTokPerSec totalTok c hc
      obtain ⟨ihwf, ihend⟩ := ih
        (c + clusterMidLayerCount L req n.benchmarkTokPerSec totalTok (getAvailableMemory n) c) hL
      constructor
      · intro iv hiv
        rcases List.mem_cons.mp hiv with rfl | hmem
        · show c ≤ c + clusterMidLayerCount L req n.benchmarkTokPerSec totalTok
            (getAvailableMemory n) c
          omega
        · exact ihwf iv hmem
      · exact ihend

theorem formClusterFromNodes_partition (nodes : List ClusterNode) (L req : ℕ) :
    pairwiseDisjoint (formClusterFromNodes nodes L req) ∧
    ∃ K : ℤ, K ≤ (L : ℤ) ∧ coversExactly (formClusterFromNodes nodes L req) K := by
  simp only [formClusterFromNodes]
  split
  · refine ⟨List.Pairwise.nil, 0, Int.natCast_nonneg L, fun x => ?_⟩
    simp only [List.not_mem_nil]
    constructor
    · rintro ⟨iv, h, -⟩
      exact absurd h (by simp)
    · rintro ⟨h1, h2⟩
      omega
  · split
    · refine ⟨List.Pairwise.nil, 0, Int.natCast_nonneg L, fun x => ?_⟩
      constructor
      · rintro ⟨iv, h, -⟩
        exact absurd h (by simp)
      · rintro ⟨h1, h2⟩
        omega
    · have hc := clusterDistLoop_consec L req
        ((selectLoop req (List.mergeSort nodes
            fun a b => decide (b.benchmarkTokPerSec ≤ a.benchmarkTokPerSec)) 0).foldl
          (fun s n => s + (if n.benchmarkTokPerSec = 0 then 1 else n.benchmarkTokPerSec)) 0)
        (selectLoop req (List.mergeSort nodes
          fun a b => decide (b.benchmarkTokPerSec ≤ a.benchmarkTokPerSec)) 0) 0
      have hwf := clusterDistLoop_wf L req
        ((selectLoop req (List.mergeSort nodes
            fun a b => decide (b.benchmarkTokPerSec ≤ a.benchmarkTokPerSec)) 0).foldl
          (fun s n => s + (if n.benchmarkTokPerSec = 0 then 1 else n.benchmarkTokPerSec)) 0)
        (selectLoop req (List.mergeSort nodes
          fun a b => decide (b.benchmarkTokPerSec ≤ a.benchmarkTokPerSec)) 0) 0
        (Int.natCast_nonneg L)
      refine ⟨consecFrom_disjoint _ 0 hc hwf.1, lastEnd 0 _, hwf.2, fun x => ?_⟩
      have := consecFrom_covers _ 0 hc hwf.1 x
      simpa using this

/-- **C4, counterexample.**  Cluster formation for `qwen/qwen3-32b`
(64 layers, 20 GB requirement, 8 GB per node) over three nodes with
benchmark throughputs 100, 1, 1 produces the intervals
`[0,25), [25,26), [26,51)`: the per-node memory cap (25 layers) truncates the
first and the last member, so the union is `[0, 51)`, not `[0, 64)` — the
claimed invariant fails. -/
theorem claim_C4_counterexample :
    ¬ (pairwiseDisjoint (formClusterLayersForModel "qwen/qwen3-32b" clusterScenarioNodes) ∧
       coversExactly (formClusterLayersForModel "qwen/qwen3-32b" clusterScenarioNodes) 64) := by
  have heval : formClusterLayersForModel "qwen/qwen3-32b" clusterScenarioNodes =
      [(0, 25), (25, 26), (26, 51)] := by
    unfold formClusterLayersForModel formClusterFromNodes clusterScenarioNodes
    rw [List.mergeSort_of_sorted (by decide)]
    norm_num [clusterModelLayers, clusterModelMemoryRequirement, selectLoop, getAvailableMemory,
      clusterDistLoop, clusterMidLayerCount, clusterLastLayerCount, maxLayersForNode,
      jsRound, jsFloorDiv, List.foldl]
  rw [heval]
  rintro ⟨-, hcov⟩
  have h60 := (hcov 60).mpr (by norm_num)
  simp only [List.mem_cons, List.not_mem_nil, or_false, intervalMem] at h60
  rcases h60 with ⟨iv, hiv, hmem⟩
  rcases hiv with rfl | rfl | rfl
  · omega
  · omega
  · omega

/-- **C4, amended.**  The intervals produced by both assignment algorithms
are always consecutive from layer 0.  For the pipeline split over a nonempty
active set, whenever every produced interval is well-formed
(`layerStart ≤ layerEnd`, i.e. no intermediate rounded share overshoots the
total), the intervals are pairwise disjoint and their union is exactly
`[0, L(m))`.  For cluster formation the intervals are always pairwise
disjoint and their union is `[0, K)` for some `K ≤ L(m)` — `K` can fall
short of `L(m)` when the per-node memory cap binds, as the counterexample
shows. -/
theorem claim_C4_amended :
    (∀ (L : ℕ) (active : List ActiveAssignment), active ≠ [] →
      (∀ iv ∈ assignLayers L active, iv.1 ≤ iv.2) →
      pairwiseDisjoint (assignLayers L active) ∧
        coversExactly (assignLayers L active) (L : ℤ)) ∧
    (∀ (model : String) (nodes : List ClusterNode),
      pairwiseDisjoint (formClusterLayersForModel model nodes) ∧
      ∃ K : ℤ, K ≤ (clusterModelLayers model : ℤ) ∧
        coversExactly (formClusterLayersForModel model nodes) K) := by
  constructor
  · intro L active hne hwf
    have hc := assignLayers_consec L active
    have hl := assignLayers_lastEnd L active hne
    refine ⟨consecFrom_disjoint _ 0 hc hwf, fun x => ?_⟩
    have := consecFrom_covers _ 0 hc hwf x
    rw [hl] at this
    simpa using this
  · intro model nodes
    exact formClusterFromNodes_partition nodes (clusterModelLayers model)
      (clusterModelMemoryRequirement model)

/-- **C4, witness** for the pipeline-split conjunct at a single-node active
set: one CPU node receives `[0, 32)`, which is disjoint and covers exactly
`[0, 32)`. -/
theorem claim_C4_witness :
    pairwiseDisjoint (assignLayers 32 [{ vramMb := 0, ramMb := 16000, device := "cpu" }]) ∧
    coversExactly (assignLayers 32 [{ vramMb := 0, ramMb := 16000, device := "cpu" }]) 32 :=
  claim_C4_amended.1 32 [{ vramMb := 0, ramMb := 16000, device := "cpu" }]
    (by decide) (by decide)

/-- **C8, counterexample.**  For `L = 32` and two GPU nodes with
`vramMb = 8192` and `16384`, the split is *not* `[0,10), [10,32)`: the first
share is `Math.round(32 · 8192/24576) = Math.round(10.67) = 11`, not
`floor = 10`. -/
theorem claim_C8_counterexample :
    assignLayers 32 [{ vramMb := 8192, ramMb := 0, device := "gpu" },
        { vramMb := 16384, ramMb := 0, device := "gpu" }] ≠
      [(0, 10), (10, 32)] := by
  have heval : assignLayers 32 [{ vramMb := 8192, ramMb := 0, device := "gpu" },
      { vramMb := 16384, ramMb := 0, device := "gpu" }] = [(0, 11), (11, 32)] := by
    unfold assignLayers
    norm_num [weightOf, splitLoop, jsRound, List.foldl,
      show (("gpu" : String) = "cpu") = False from by simp]
  rw [heval]
  decide

/-- **C8, amended.**  For a model with `L = 32` and two active pipeline nodes
with vram weights 8 GiB and 16 GiB, the split assigns `[0, 11)` to the first
node and `[11, 32)` to the second (`Math.round`, not `floor`, of the
proportional share; the last node absorbs the remainder). -/
theorem claim_C8_amended :
    assignLayers 32 [{ vramMb := 8192, ramMb := 0, device := "gpu" },
        { vramMb := 16384, ramMb := 0, device := "gpu" }] = [(0, 11), (11, 32)] := by
  unfold assignLayers
  norm_num [weightOf, splitLoop, jsRound, List.foldl,
    show (("gpu" : String) = "cpu") = False from by simp]

end PlumiseOracle
